import Mathlib

/-!
Verification of the LISA harness fragment: the marker-validation schema and
run configuration of `lisa.py`, and the retry/health-check orchestration core
(Escalator / HealthCheckSession) that the specification defines for the
smoke-test scenario of `testsuites/test_smoke.py`.
-/

/-! ## Error taxonomy and command results (spec §3, §7) -/

/-- Modelled from the spec: the ErrorKind taxonomy of §7 (the Escalator and
HealthCheckSession core is specified but not implemented under the
repository's files). -/
inductive ErrorKind where
  | Timeout
  | ConnectionRefused
  | AuthFailure
  | PlatformUnavailable
  | ConfigurationError
deriving DecidableEq, Repr

/-- Modelled from the spec: CommandResult, the outcome of one attempted
operation (§3). -/
structure CommandResult where
  command : String
  succeeded : Bool
  exitCode : Option Int
  errorKind : Option ErrorKind
  rawOutput : Option String
deriving DecidableEq, Repr

/-- Modelled from the spec: a strategy performs the operation and returns a
CommandResult or raises a transport fault carrying an ErrorKind (§3).  The
Nat argument is the global invocation counter at the moment the strategy is
invoked, making invocation counts and cross-call determinism observable in
the shallow embedding. -/
abbrev Strategy := Nat → Except ErrorKind CommandResult

/-- Modelled from the spec: EscalationPolicy (§3), an ordered sequence of
strategies plus the set of fault kinds that permit falling through. -/
structure EscalationPolicy where
  steps : List Strategy
  retryableErrors : List ErrorKind

/-- Modelled from the spec: the CommandResult the Escalator returns when a
strategy's fault terminates escalation (§4.1 step 3): errorKind set,
succeeded false. -/
def faultResult (k : ErrorKind) : CommandResult :=
  { command := "escalation", succeeded := false, exitCode := none,
    errorKind := some k, rawOutput := none }

/-- Modelled from the spec: the strategy-iteration loop of `Escalator.execute`
(§4.1).  Returns the CommandResult together with the invocation counter after
the call; invoking a strategy increments the counter.  A fault that is
retryable and not on the last strategy falls through; any fault on the last
strategy, or a non-retryable fault, is converted into `faultResult`; a
returned CommandResult (success or soft failure) terminates escalation. -/
def escalate (retryable : ErrorKind → Bool) : List Strategy → Nat → CommandResult × Nat
  | [], c => (faultResult ErrorKind.ConfigurationError, c)
  | [s], c =>
    match s c with
    | Except.ok r => (r, c + 1)
    | Except.error k => (faultResult k, c + 1)
  | s :: s2 :: rest, c =>
    match s c with
    | Except.ok r => (r, c + 1)
    | Except.error k =>
      if retryable k then escalate retryable (s2 :: rest) (c + 1)
      else (faultResult k, c + 1)

/-- Modelled from the spec: `Escalator.execute (policy) -> CommandResult`
(§4.1), instrumented with the invocation counter.  An empty policy fails with
ConfigurationError. -/
def Escalator.execute (p : EscalationPolicy) (calls : Nat) : CommandResult × Nat :=
  escalate (fun k => p.retryableErrors.contains k) p.steps calls

/-! ## HealthCheckSession (spec §4.2) -/

/-- Modelled from the spec: StepOutcome (§3). -/
structure StepOutcome where
  stepName : String
  result : CommandResult
  isWarningOnly : Bool
deriving DecidableEq, Repr

/-- Modelled from the spec: HealthCheckReport (§3), extended with the warning
entries that §7 requires the report to distinguish. -/
structure HealthCheckReport where
  steps : List StepOutcome
  warnings : List String
  overallPassed : Bool
deriving DecidableEq, Repr

/-- A CommandResult wrapping a boolean probe outcome (the ReachabilityProbe
and DiagnosticsFetch collaborators of §6 return no fault). -/
def probeResult (cmd : String) (ok : Bool) : CommandResult :=
  { command := cmd, succeeded := ok, exitCode := none, errorKind := none,
    rawOutput := none }

/-- A shell probe fails when it raises a transport fault or when it ran and
produced an unsuccessful result (the source warns in both cases). -/
def shellProbeFailed : Except ErrorKind CommandResult → Bool
  | Except.error _ => true
  | Except.ok r => !r.succeeded

/-- Diagnostics fetch outcome as a boolean (best-effort, §6). -/
def diagnosticsOk : Except ErrorKind String → Bool
  | Except.ok _ => true
  | Except.error _ => false

/-- Modelled from the spec: the four stages of the session, in order
(§4.2): pre-action reachability check (fatal), disruptive action through the
Escalator (advisory, as in the source where a failed reboot only warns),
post-action reachability check (fatal), diagnostics fetch (advisory). -/
def stepList (reachBefore reachAfter : Bool) (action : CommandResult)
    (diagOk : Bool) : List StepOutcome :=
  [ { stepName := "precheck", result := probeResult "ping before action" reachBefore,
      isWarningOnly := false },
    { stepName := "action", result := action, isWarningOnly := true },
    { stepName := "postcheck", result := probeResult "ping after action" reachAfter,
      isWarningOnly := false },
    { stepName := "diagnostics", result := probeResult "diagnostics fetch" diagOk,
      isWarningOnly := true } ]

/-- Modelled from the spec: the warning entries of a session run, in stage
order: a failed shell probe before the action, an action that completed with
a failure, a failed shell probe after the action, a failed diagnostics
fetch. -/
def warningList (shellBeforeFailed actionFailed shellAfterFailed diagFailed : Bool) :
    List String :=
  (if shellBeforeFailed then ["shell probe before action failed"] else []) ++
  (if actionFailed then ["action command completed with a failure"] else []) ++
  (if shellAfterFailed then ["shell probe after action failed"] else []) ++
  (if diagFailed then ["diagnostics fetch failed"] else [])

/-- Modelled from the spec: `HealthCheckSession.run` (§4.2).  Probe outcomes
are passed as deterministic values: the reachability probe returns a bare
boolean (§6), the shell probe may raise a transport fault or return a
CommandResult, the disruptive action goes through `Escalator.execute`, and
the diagnostics fetch is best-effort.  `overallPassed` is true iff every
step whose `isWarningOnly` is false succeeded (§3). -/
def HealthCheckSession.run (reachBefore reachAfter : Bool)
    (shellBefore shellAfter : Except ErrorKind CommandResult)
    (actionPolicy : EscalationPolicy)
    (diagnostics : Except ErrorKind String) : HealthCheckReport :=
  { steps := stepList reachBefore reachAfter (Escalator.execute actionPolicy 0).1
      (diagnosticsOk diagnostics),
    warnings := warningList (shellProbeFailed shellBefore)
      (!(Escalator.execute actionPolicy 0).1.succeeded)
      (shellProbeFailed shellAfter) (!diagnosticsOk diagnostics),
    overallPassed :=
      (stepList reachBefore reachAfter (Escalator.execute actionPolicy 0).1
        (diagnosticsOk diagnostics)).all
        (fun s => s.isWarningOnly || s.result.succeeded) }

/-! ## Concrete fixtures used by the session claims -/

/-- A successful shell result, as `node.run` returns on a healthy host. -/
def okShellResult : CommandResult :=
  { command := "uptime", succeeded := true, exitCode := some 0,
    errorKind := none, rawOutput := some "up" }

/-- The default retryable set (§7): transport-layer faults. -/
def defaultRetryable : List ErrorKind :=
  [ErrorKind.Timeout, ErrorKind.ConnectionRefused, ErrorKind.AuthFailure]

/-- An action policy whose single strategy completes successfully. -/
def okPolicy : EscalationPolicy :=
  { steps := [fun _ => Except.ok okShellResult], retryableErrors := defaultRetryable }

/-- The CommandResult of a reboot command that ran to completion with exit
code `e`: the source treats exit code exactly -1 (SSH channel dropped
mid-command) as the success signal. -/
def rebootResult (e : Int) : CommandResult :=
  { command := "reboot", succeeded := e == -1, exitCode := some e,
    errorKind := none, rawOutput := none }

/-- A reboot action policy whose shell strategy completes with exit code `e`. -/
def rebootPolicy (e : Int) : EscalationPolicy :=
  { steps := [fun _ => Except.ok (rebootResult e)],
    retryableErrors := defaultRetryable }

/-! ## The run configuration of `lisa.py` -/

/-- The `"run"` sub-dictionary of the `config` dictionary of `lisa.py`. -/
structure RunConfig where
  echo : Bool
  in_stream : Bool
  command_timeout : Nat
deriving DecidableEq, Repr

/-- The `config` dictionary of `lisa.py`. -/
structure LisaConfig where
  run : RunConfig
deriving DecidableEq, Repr

/-- The `config` value of `lisa.py`: echo on, stdin forwarding off, remote
commands limited to 1200 seconds. -/
def config : LisaConfig :=
  { run := { echo := true, in_stream := false, command_timeout := 1200 } }

/-- Modelled from the spec: the default of the `commandTimeoutSeconds`
configuration value consumed by the core (§6). -/
def commandTimeoutSecondsDefault : Nat := 1200

/-! ## The marker schema and `validate` of `lisa.py` -/

/-- A Python value as it occurs in a LISA marker's kwargs: a string, an
integer, or a list of values. -/
inductive Value where
  | vstr (s : String)
  | vint (n : Int)
  | vlist (xs : List Value)
deriving Repr

/-- A kwargs mapping: a Python dict rendered as an association list of
string keys to values (a dict has no repeated key). -/
abbrev Kwargs := List (String × Value)

/-- Whether a value is a Python `str`. -/
def isStrVal : Value → Bool
  | Value.vstr _ => true
  | _ => false

/-- Whether a value validates against
`Or("Functional", "Performance", "Stress", "Community", "Longhaul")`. -/
def categoryOk : Value → Bool
  | Value.vstr s =>
    s == "Functional" || s == "Performance" || s == "Stress" ||
      s == "Community" || s == "Longhaul"
  | _ => false

/-- Whether a value validates against `Or(0, 1, 2, 3)`. -/
def priorityOk : Value → Bool
  | Value.vint n => n == 0 || n == 1 || n == 2 || n == 3
  | _ => false

/-- Whether a value validates against `[str]`: a list of strings. -/
def featuresOk : Value → Bool
  | Value.vlist xs => xs.all isStrVal
  | _ => false

/-- Validation of one kwargs entry by the first schema key of `lisa_schema`
that matches the entry's key (literal keys take priority over the
`Optional(object)` catch-all, and a matched key's value must validate). -/
def entryOk (k : String) (v : Value) : Bool :=
  if k == "platform" then isStrVal v
  else if k == "category" then categoryOk v
  else if k == "area" then isStrVal v
  else if k == "priority" then priorityOk v
  else if k == "features" then featuresOk v
  else true

/-- Whether the mapping has an entry for key `k`. -/
def hasKey (d : Kwargs) (k : String) : Bool :=
  (List.lookup k d).isSome

/-- The required (non-Optional) schema keys of `lisa_schema` must all be
covered by the data. -/
def requiredKeysPresent (d : Kwargs) : Bool :=
  hasKey d "platform" && hasKey d "category" && hasKey d "area" &&
    hasKey d "priority"

/-- `lisa_schema.validate`: every entry must validate against its matching
schema key and every required key must be present; extra keys match
`Optional(object): object` and are kept.  When the data has no `features`
key, the Optional's default `list` supplies `features = []` in the result.
Returns `none` where the library raises `SchemaError`. -/
def lisa_schema.validate (d : Kwargs) : Option Kwargs :=
  if d.all (fun p => entryOk p.1 p.2) && requiredKeysPresent d then
    some (if hasKey d "features" then d else d ++ [("features", Value.vlist [])])
  else none

/-- The outcome of `validate` on a marker: the Python function raises
`AssertionError` on positional arguments and propagates `SchemaError` from
`lisa_schema.validate`. -/
inductive MarkError where
  | assertionError (msg : String)
  | schemaError
deriving DecidableEq, Repr

/-- A pytest marker as `validate` consumes it: positional args and keyword
args. -/
structure Mark where
  args : List Value
  kwargs : Kwargs

/-- `dict.__setitem__`: replace the value of an existing key, else append. -/
def setKey : Kwargs → String → Value → Kwargs
  | [], k, v => [(k, v)]
  | (k0, v0) :: rest, k, v =>
    if k0 == k then (k, v) :: rest else (k0, v0) :: setKey rest k v

/-- `dict.update`: set every entry of `u` in `d`, in order. -/
def dictUpdate (d u : Kwargs) : Kwargs :=
  u.foldl (fun acc p => setKey acc p.1 p.2) d

/-- `validate(mark)` of `lisa.py`: assert that the marker has no positional
arguments, then merge the schema-validated kwargs back into the marker's
kwargs.  Returns the error (if any) together with the resulting marker
state; on an error the marker is left unmodified. -/
def validate (m : Mark) : Option MarkError × Mark :=
  if m.args.isEmpty then
    match lisa_schema.validate m.kwargs with
    | some validated => (none, { m with kwargs := dictUpdate m.kwargs validated })
    | none => (some MarkError.schemaError, m)
  else
    (some (MarkError.assertionError "LISA marker cannot have positional arguments!"), m)

/-! ## Escalator lemmas -/

/-- The escalation loop's result is either some strategy's returned
CommandResult or a converted fault (succeeded false, errorKind set). -/
theorem escalate_classified (f : ErrorKind → Bool) :
    ∀ (l : List Strategy) (c : Nat),
      (∃ s ∈ l, ∃ n r, s n = Except.ok r ∧ (escalate f l c).1 = r)
      ∨ ((escalate f l c).1.succeeded = false
          ∧ ((escalate f l c).1.errorKind).isSome = true) := by
  intro l
  induction l with
  | nil => intro c; right; simp [escalate, faultResult]
  | cons s0 rest ih =>
    intro c
    cases rest with
    | nil =>
      cases hs : s0 c with
      | ok r => exact Or.inl ⟨s0, by simp, c, r, hs, by simp [escalate, hs]⟩
      | error k => right; simp [escalate, hs, faultResult]
    | cons s1 rest2 =>
      cases hs : s0 c with
      | ok r => exact Or.inl ⟨s0, by simp, c, r, hs, by simp [escalate, hs]⟩
      | error k =>
        by_cases hf : f k
        · rcases ih (c + 1) with ⟨s2, hmem, n, r, hsr, hres⟩ | h
          · left
            refine ⟨s2, List.mem_cons_of_mem _ hmem, n, r, hsr, ?_⟩
            simpa [escalate, hs, hf] using hres
          · right
            simpa [escalate, hs, hf] using h
        · right; simp [escalate, hs, hf, faultResult]

/-- If the strategy at position `i` returns a CommandResult whatever the
invocation counter, the escalation loop makes at most `i + 1` invocations. -/
theorem escalate_count_le (f : ErrorKind → Bool) (s : Strategy) (r : CommandResult)
    (hok : ∀ n, s n = Except.ok r) :
    ∀ (l : List Strategy) (c i : Nat), l[i]? = some s →
      (escalate f l c).2 ≤ c + i + 1 := by
  intro l
  induction l with
  | nil => intro c i hget; simp at hget
  | cons s0 rest ih =>
    intro c i hget
    cases rest with
    | nil =>
      cases hs : s0 c with
      | ok r0 =>
        have h2 : (escalate f [s0] c).2 = c + 1 := by simp [escalate, hs]
        omega
      | error k =>
        have h2 : (escalate f [s0] c).2 = c + 1 := by simp [escalate, hs]
        omega
    | cons s1 rest2 =>
      cases hs : s0 c with
      | ok r0 =>
        have h2 : (escalate f (s0 :: s1 :: rest2) c).2 = c + 1 := by
          simp [escalate, hs]
        omega
      | error k =>
        by_cases hf : f k
        · cases i with
          | zero =>
            simp at hget
            have hc : s0 c = Except.ok r := by rw [hget]; exact hok c
            rw [hc] at hs
            exact Except.noConfusion hs
          | succ j =>
            have hget2 : (s1 :: rest2)[j]? = some s := by simpa using hget
            have hrec := ih (c + 1) j hget2
            have hstep : (escalate f (s0 :: s1 :: rest2) c).2
                = (escalate f (s1 :: rest2) (c + 1)).2 := by
              simp [escalate, hs, hf]
            omega
        · have h2 : (escalate f (s0 :: s1 :: rest2) c).2 = c + 1 := by
            simp [escalate, hs, hf]
          omega

/-- With strategies whose outcome does not depend on the invocation counter,
the escalation loop's CommandResult does not depend on the counter either. -/
theorem escalate_deterministic (f : ErrorKind → Bool) :
    ∀ (l : List Strategy), (∀ s ∈ l, ∀ n m : Nat, s n = s m) →
      ∀ c1 c2 : Nat, (escalate f l c1).1 = (escalate f l c2).1 := by
  intro l
  induction l with
  | nil => intro _ c1 c2; rfl
  | cons s0 rest ih =>
    intro hdet c1 c2
    have h0 : s0 c1 = s0 c2 := hdet s0 (by simp) c1 c2
    cases rest with
    | nil =>
      cases hs : s0 c2 with
      | ok r => simp [escalate, hs, h0.trans hs]
      | error k => simp [escalate, hs, h0.trans hs]
    | cons s1 rest2 =>
      cases hs : s0 c2 with
      | ok r => simp [escalate, hs, h0.trans hs]
      | error k =>
        have hdet2 : ∀ s ∈ s1 :: rest2, ∀ n m : Nat, s n = s m :=
          fun s hmem => hdet s (List.mem_cons_of_mem _ hmem)
        by_cases hf : f k
        · simpa [escalate, hs, h0.trans hs, hf] using ih hdet2 (c1 + 1) (c2 + 1)
        · simp [escalate, hs, h0.trans hs, hf]

/-! ## Claims about the Escalator -/

/-- C2: for every policy with at least 2 strategies where strategy 1 raises a
retryable transport fault and strategy 2 returns its result, `execute`
returns strategy 2's result (after exactly two invocations) and strategy 1's
fault is not propagated to the caller. -/
theorem c2_retryable_fault_falls_through
    (k : ErrorKind) (r2 : CommandResult) (rest : List Strategy)
    (rs : List ErrorKind) (c : Nat) (hk : k ∈ rs) :
    Escalator.execute
      { steps := (fun _ => Except.error k) :: (fun _ => Except.ok r2) :: rest,
        retryableErrors := rs } c = (r2, c + 2) := by
  cases rest with
  | nil =>
    simp [Escalator.execute, escalate, hk, Prod.mk.injEq]
  | cons s3 rest2 =>
    simp [Escalator.execute, escalate, hk, Prod.mk.injEq]

/-- C2 witness: a shell reboot strategy raising a Timeout fault falls through
to a platform strategy that completes, and the fault does not escape. -/
theorem c2_retryable_fault_falls_through_witness :
    Escalator.execute
      { steps := (fun _ => Except.error ErrorKind.Timeout) ::
          (fun _ => Except.ok okShellResult) :: [],
        retryableErrors := defaultRetryable } 0 = (okShellResult, 2) :=
  c2_retryable_fault_falls_through ErrorKind.Timeout okShellResult []
    defaultRetryable 0 (by decide)

/-- C3: collaborator faults are caught at the Escalator boundary: for every
policy and counter, the session layer receives a CommandResult that is either
some strategy's own returned result or a converted fault with `succeeded`
false and `errorKind` set — never a raw exception. -/
theorem c3_faults_never_leak (p : EscalationPolicy) (c : Nat) :
    (∃ s ∈ p.steps, ∃ n r, s n = Except.ok r ∧ (Escalator.execute p c).1 = r)
    ∨ ((Escalator.execute p c).1.succeeded = false
        ∧ ((Escalator.execute p c).1.errorKind).isSome = true) :=
  escalate_classified (fun k => p.retryableErrors.contains k) p.steps c

/-- C4: a strategy that runs to completion terminates escalation regardless
of its exit code: if the strategy at position `i` returns a CommandResult,
the Escalator makes at most `i + 1` invocations, so no strategy after `i` is
invoked. -/
theorem c4_result_terminates_escalation (p : EscalationPolicy) (c i : Nat)
    (s : Strategy) (r : CommandResult) (hget : p.steps[i]? = some s)
    (hok : ∀ n, s n = Except.ok r) :
    (Escalator.execute p c).2 ≤ c + i + 1 :=
  escalate_count_le (fun k => p.retryableErrors.contains k) s r hok p.steps c i hget

/-- A reboot action policy whose first strategy completes with exit code 1 (a
soft failure) and whose second strategy is the platform fallback. -/
def softFailThenPlatformPolicy : EscalationPolicy :=
  { steps := [fun _ => Except.ok (rebootResult 1),
      fun _ => Except.ok okShellResult],
    retryableErrors := defaultRetryable }

/-- C4 witness: a reboot command that ran but exited with code 1 (not -1)
terminates escalation after one invocation; the platform fallback strategy is
never invoked. -/
theorem c4_result_terminates_escalation_witness :
    (Escalator.execute softFailThenPlatformPolicy 0).2 ≤ 1 :=
  c4_result_terminates_escalation softFailThenPlatformPolicy 0 0
    (fun _ => Except.ok (rebootResult 1)) (rebootResult 1) rfl (fun _ => rfl)

/-- C8: execution is deterministic with respect to the policy: two calls of
`execute` with the same policy and deterministic strategies yield identical
CommandResults, whatever invocation counters the two calls start from. -/
theorem c8_execute_deterministic (p : EscalationPolicy)
    (hdet : ∀ s ∈ p.steps, ∀ n m : Nat, s n = s m) (c1 c2 : Nat) :
    (Escalator.execute p c1).1 = (Escalator.execute p c2).1 :=
  escalate_deterministic (fun k => p.retryableErrors.contains k) p.steps hdet c1 c2

/-- C8 witness: two runs of the successful single-strategy policy, the second
starting after seven earlier invocations, produce the same CommandResult. -/
theorem c8_execute_deterministic_witness :
    (Escalator.execute okPolicy 0).1 = (Escalator.execute okPolicy 7).1 :=
  c8_execute_deterministic okPolicy
    (by
      intro s hs n m
      have hsingle : s = fun _ => Except.ok okShellResult := by
        simpa [okPolicy] using hs
      rw [hsingle])
    0 7

/-! ## Claims about the HealthCheckSession -/

/-- C1: the overall verdict fails only on reachability: for every session
run, `overallPassed` equals the conjunction of the before/after reachability
checks, so it is false iff one of them failed and shell-probe failures never
affect it; and in the concrete scenario with reachability `(true, false)` and
the shell probe raising a transport fault before and after, the run reports
`overallPassed = false` and exactly 2 warning entries. -/
theorem c1_overall_verdict_reachability_only :
    (∀ (rb ra : Bool) (sb sa : Except ErrorKind CommandResult)
        (p : EscalationPolicy) (d : Except ErrorKind String),
        (HealthCheckSession.run rb ra sb sa p d).overallPassed = (rb && ra))
    ∧ (HealthCheckSession.run true false (Except.error ErrorKind.Timeout)
        (Except.error ErrorKind.Timeout) okPolicy
        (Except.ok "serial console log")).overallPassed = false
    ∧ (HealthCheckSession.run true false (Except.error ErrorKind.Timeout)
        (Except.error ErrorKind.Timeout) okPolicy
        (Except.ok "serial console log")).warnings.length = 2 := by
  refine ⟨?_, by rfl, by rfl⟩
  intro rb ra sb sa p d
  simp [HealthCheckSession.run, stepList, probeResult]

/-- C6: every session run records the four stages pre-check, action,
post-check, diagnostics-fetch exactly once, in that order, with no stage
skipped on an earlier failure (4 steps always); and with all probes
succeeding the run yields `overallPassed = true` with 4 steps. -/
theorem c6_four_stages_always :
    (∀ (rb ra : Bool) (sb sa : Except ErrorKind CommandResult)
        (p : EscalationPolicy) (d : Except ErrorKind String),
        (HealthCheckSession.run rb ra sb sa p d).steps.map StepOutcome.stepName
            = ["precheck", "action", "postcheck", "diagnostics"]
          ∧ (HealthCheckSession.run rb ra sb sa p d).steps.length = 4)
    ∧ (HealthCheckSession.run true true (Except.ok okShellResult)
        (Except.ok okShellResult) okPolicy
        (Except.ok "serial console log")).overallPassed = true
    ∧ (HealthCheckSession.run true true (Except.ok okShellResult)
        (Except.ok okShellResult) okPolicy
        (Except.ok "serial console log")).steps.length = 4 := by
  refine ⟨?_, by rfl, by rfl⟩
  intro rb ra sb sa p d
  exact ⟨by simp [HealthCheckSession.run, stepList],
    by simp [HealthCheckSession.run, stepList]⟩

/-- C5: the reboot step treats exit code exactly -1 as the success signal:
a completed reboot succeeds iff its exit code is -1, and in an otherwise
healthy session a warning is emitted for the reboot iff the exit code
differs from -1. -/
theorem c5_reboot_exit_minus_one_is_success (e : Int) :
    ((rebootResult e).succeeded = true ↔ e = -1)
    ∧ (HealthCheckSession.run true true (Except.ok okShellResult)
        (Except.ok okShellResult) (rebootPolicy e)
        (Except.ok "serial console log")).warnings
      = (if e = -1 then [] else ["action command completed with a failure"]) := by
  constructor
  · simp [rebootResult]
  · by_cases h : e = -1
    · simp [HealthCheckSession.run, warningList, shellProbeFailed, diagnosticsOk,
        Escalator.execute, escalate, rebootPolicy, rebootResult, okShellResult, h]
    · simp [HealthCheckSession.run, warningList, shellProbeFailed, diagnosticsOk,
        Escalator.execute, escalate, rebootPolicy, rebootResult, okShellResult, h]

/-! ## Claim about the run configuration -/

/-- C7: the default command timeout consumed by the core is 1200 seconds:
the source's `config` sets `command_timeout` to 1200, matching the spec's
`commandTimeoutSeconds` default. -/
theorem c7_default_command_timeout :
    config.run.command_timeout = 1200
    ∧ config.run.command_timeout = commandTimeoutSecondsDefault :=
  ⟨rfl, rfl⟩

/-! ## Claims about `validate` and `lisa_schema` -/

/-- C9: a marker with positional arguments always fails the assertion with
the source's message, whatever its kwargs hold — the marker is left
unmodified and schema validation is never reached. -/
theorem c9_positional_args_assertion (m : Mark) (h : m.args ≠ []) :
    validate m
      = (some (MarkError.assertionError "LISA marker cannot have positional arguments!"),
          m) := by
  cases hargs : m.args with
  | nil => exact absurd hargs h
  | cons a rest => simp [validate, hargs]

/-- A marker with a positional argument and kwargs that would pass the
schema. -/
def badMark : Mark :=
  { args := [Value.vint 2],
    kwargs := [("platform", Value.vstr "Azure"), ("category", Value.vstr "Functional"),
      ("area", Value.vstr "core"), ("priority", Value.vint 1)] }

/-- C9 witness: the assertion fires on a concrete marker with one positional
argument and schema-valid kwargs. -/
theorem c9_positional_args_assertion_witness :
    validate badMark
      = (some (MarkError.assertionError "LISA marker cannot have positional arguments!"),
          badMark) :=
  c9_positional_args_assertion badMark (by simp [badMark])

/-- The looked-up value of key `k` satisfies `ok`, and the key is present. -/
def lookupSat (d : Kwargs) (k : String) (ok : Value → Bool) : Bool :=
  match List.lookup k d with
  | some v => ok v
  | none => false

/-- The acceptance condition exactly as claim C10 words it: string
`platform` and `area`, `category` one of the five category names, `priority`
one of 0, 1, 2, 3 — with no condition on `features`. -/
def c10ClaimAccepts (d : Kwargs) : Bool :=
  lookupSat d "platform" isStrVal && lookupSat d "area" isStrVal &&
    lookupSat d "category" categoryOk && lookupSat d "priority" priorityOk

/-- The condition the counterexample forces into the amended claim: a
`features` entry, when present, must be a list of strings. -/
def c10FeaturesClause (d : Kwargs) : Bool :=
  match List.lookup "features" d with
  | some v => featuresOk v
  | none => true

/-- A kwargs mapping that satisfies claim C10's stated acceptance condition
but carries an ill-typed `features` entry. -/
def badFeaturesKwargs : Kwargs :=
  [("platform", Value.vstr "Azure"), ("category", Value.vstr "Functional"),
    ("area", Value.vstr "core"), ("priority", Value.vint 1),
    ("features", Value.vint 3)]

/-- C10 counterexample: `badFeaturesKwargs` meets the claim's acceptance
condition (string platform and area, valid category and priority), yet
`lisa_schema.validate` rejects it, because its `features` entry is not a
list of strings. -/
theorem c10_features_counterexample :
    c10ClaimAccepts badFeaturesKwargs = true
    ∧ lisa_schema.validate badFeaturesKwargs = none :=
  ⟨rfl, rfl⟩

/-- A key that `List.lookup` resolves is an entry of the mapping. -/
theorem kwargs_mem_of_lookup {k : String} {v : Value} :
    ∀ d : Kwargs, List.lookup k d = some v → (k, v) ∈ d := by
  intro d
  induction d with
  | nil => intro h; simp [List.lookup] at h
  | cons kv rest ih =>
    obtain ⟨k0, v0⟩ := kv
    intro h
    cases hk : k == k0 with
    | true =>
      simp [List.lookup, hk] at h
      rw [eq_of_beq hk, ← h]
      exact List.mem_cons_self _ _
    | false =>
      simp [List.lookup, hk] at h
      exact List.mem_cons_of_mem _ (ih h)

/-- In a mapping without repeated keys (a Python dict), an entry's value is
what `List.lookup` resolves its key to. -/
theorem kwargs_lookup_of_mem_nodup :
    ∀ d : Kwargs, (d.map Prod.fst).Nodup →
      ∀ {k : String} {v : Value}, (k, v) ∈ d → List.lookup k d = some v := by
  intro d
  induction d with
  | nil => intro _ k v h; simp at h
  | cons kv rest ih =>
    obtain ⟨k0, v0⟩ := kv
    intro hnd k v hmem
    rw [List.map_cons, List.nodup_cons] at hnd
    obtain ⟨hk0, hnd2⟩ := hnd
    rcases List.mem_cons.mp hmem with heq | htail
    · injection heq with h1 h2
      subst h1; subst h2
      simp [List.lookup]
    · have hne : k ≠ k0 := by
        intro he
        subst he
        exact hk0 (List.mem_map.mpr ⟨(k, v), htail, rfl⟩)
      have hbeq : (k == k0) = false := beq_eq_false_iff_ne.mpr hne
      simp only [List.lookup, hbeq]
      exact ih hnd2 htail

/-- Looking a key up past a prefix that does not bind it. -/
theorem kwargs_lookup_append_none {k : String} :
    ∀ d l : Kwargs, List.lookup k d = none →
      List.lookup k (d ++ l) = List.lookup k l := by
  intro d l
  induction d with
  | nil => intro _; rfl
  | cons kv rest ih =>
    obtain ⟨k0, v0⟩ := kv
    intro h
    cases hk : k == k0 with
    | true => simp [List.lookup, hk] at h
    | false =>
      simp only [List.cons_append, List.lookup, hk] at h ⊢
      exact ih h

/-- Acceptance by `lisa_schema.validate` is exactly: every entry validates
and every required key is present. -/
theorem lisa_schema_validate_isSome (d : Kwargs) :
    (lisa_schema.validate d).isSome
      = (d.all (fun p => entryOk p.1 p.2) && requiredKeysPresent d) := by
  rw [lisa_schema.validate]
  by_cases h : (d.all (fun p => entryOk p.1 p.2) && requiredKeysPresent d) = true
  · simp [h]
  · simp [h]

/-- A satisfied lookup means the key is present. -/
theorem hasKey_of_lookupSat {d : Kwargs} {k : String} {ok : Value → Bool}
    (h : lookupSat d k ok = true) : hasKey d k = true := by
  rw [lookupSat] at h
  rw [hasKey]
  cases hl : List.lookup k d with
  | none => rw [hl] at h; simp at h
  | some v => simp

/-- When every entry validates and key `k` is present, the looked-up value
satisfies any predicate `entryOk k` implies. -/
theorem lookupSat_of_all {d : Kwargs}
    (hall : ∀ p ∈ d, entryOk p.1 p.2 = true) {k : String} {ok : Value → Bool}
    (hkey : hasKey d k = true)
    (hok : ∀ v, entryOk k v = true → ok v = true) :
    lookupSat d k ok = true := by
  rw [hasKey] at hkey
  rw [lookupSat]
  cases hl : List.lookup k d with
  | none => rw [hl] at hkey; simp at hkey
  | some v => exact hok v (hall (k, v) (kwargs_mem_of_lookup d hl))

/-- In a mapping without repeated keys, the claim's acceptance condition plus
a well-typed `features` entry make every entry validate. -/
theorem all_entryOk_of_claim {d : Kwargs} (hnd : (d.map Prod.fst).Nodup)
    (hp : lookupSat d "platform" isStrVal = true)
    (ha : lookupSat d "area" isStrVal = true)
    (hc : lookupSat d "category" categoryOk = true)
    (hpr : lookupSat d "priority" priorityOk = true)
    (hf : c10FeaturesClause d = true) :
    ∀ p ∈ d, entryOk p.1 p.2 = true := by
  intro p hmem
  obtain ⟨k, v⟩ := p
  have hl : List.lookup k d = some v := kwargs_lookup_of_mem_nodup d hnd hmem
  by_cases h1 : k = "platform"
  · subst h1
    rw [lookupSat, hl] at hp
    simpa [entryOk] using hp
  · by_cases h2 : k = "category"
    · subst h2
      rw [lookupSat, hl] at hc
      simpa [entryOk] using hc
    · by_cases h3 : k = "area"
      · subst h3
        rw [lookupSat, hl] at ha
        simpa [entryOk] using ha
      · by_cases h4 : k = "priority"
        · subst h4
          rw [lookupSat, hl] at hpr
          simpa [entryOk] using hpr
        · by_cases h5 : k = "features"
          · subst h5
            rw [c10FeaturesClause, hl] at hf
            simpa [entryOk] using hf
          · simp [entryOk, h1, h2, h3, h4, h5]

/-- C10 amended: for a kwargs mapping without repeated keys,
`lisa_schema.validate` accepts iff it has string `platform` and `area`,
`category` one of the five category names, `priority` one of 0, 1, 2, 3,
and — the condition the counterexample forces — a `features` entry, when
present, that is a list of strings; extra keys are ignored rather than
rejected; and when `features` is absent the validated result binds
`features` to the empty list. -/
theorem c10_schema_acceptance_amended (d : Kwargs)
    (hnd : (d.map Prod.fst).Nodup) :
    ((lisa_schema.validate d).isSome = true
      ↔ (c10ClaimAccepts d && c10FeaturesClause d) = true)
    ∧ (List.lookup "features" d = none →
        ∀ r, lisa_schema.validate d = some r →
          List.lookup "features" r = some (Value.vlist [])) := by
  constructor
  · rw [lisa_schema_validate_isSome]
    constructor
    · intro h
      rw [Bool.and_eq_true] at h
      obtain ⟨hall0, hreq⟩ := h
      rw [List.all_eq_true] at hall0
      have hall : ∀ p ∈ d, entryOk p.1 p.2 = true := fun p hp => hall0 p hp
      rw [requiredKeysPresent] at hreq
      rw [Bool.and_eq_true, Bool.and_eq_true, Bool.and_eq_true] at hreq
      obtain ⟨⟨⟨hkp, hkc⟩, hka⟩, hkpr⟩ := hreq
      rw [Bool.and_eq_true]
      constructor
      · rw [c10ClaimAccepts]
        rw [Bool.and_eq_true, Bool.and_eq_true, Bool.and_eq_true]
        refine ⟨⟨⟨?_, ?_⟩, ?_⟩, ?_⟩
        · exact lookupSat_of_all hall hkp (fun v hv => by simpa [entryOk] using hv)
        · exact lookupSat_of_all hall hka (fun v hv => by simpa [entryOk] using hv)
        · exact lookupSat_of_all hall hkc (fun v hv => by simpa [entryOk] using hv)
        · exact lookupSat_of_all hall hkpr (fun v hv => by simpa [entryOk] using hv)
      · rw [c10FeaturesClause]
        cases hl : List.lookup "features" d with
        | none => rfl
        | some v =>
          have hv := hall ("features", v) (kwargs_mem_of_lookup d hl)
          simpa [entryOk] using hv
    · intro h
      rw [Bool.and_eq_true] at h
      obtain ⟨hacc, hf⟩ := h
      rw [c10ClaimAccepts] at hacc
      rw [Bool.and_eq_true, Bool.and_eq_true, Bool.and_eq_true] at hacc
      obtain ⟨⟨⟨hp, ha⟩, hc⟩, hpr⟩ := hacc
      rw [Bool.and_eq_true]
      constructor
      · rw [List.all_eq_true]
        exact all_entryOk_of_claim hnd hp ha hc hpr hf
      · rw [requiredKeysPresent]
        rw [Bool.and_eq_true, Bool.and_eq_true, Bool.and_eq_true]
        exact ⟨⟨⟨hasKey_of_lookupSat hp, hasKey_of_lookupSat hc⟩,
          hasKey_of_lookupSat ha⟩, hasKey_of_lookupSat hpr⟩
  · intro hfnone r hr
    have hkf : hasKey d "features" = false := by
      rw [hasKey, hfnone]
      rfl
    rw [lisa_schema.validate] at hr
    by_cases hcond : (d.all (fun p => entryOk p.1 p.2) && requiredKeysPresent d) = true
    · rw [if_pos hcond] at hr
      rw [hkf] at hr
      simp only [Bool.false_eq_true, if_false, Option.some.injEq] at hr
      rw [← hr]
      rw [kwargs_lookup_append_none d _ hfnone]
      rfl
    · rw [if_neg hcond] at hr
      exact absurd hr (by simp)

/-- A schema-valid kwargs mapping with no `features` entry. -/
def goodKwargs : Kwargs :=
  [("platform", Value.vstr "Azure"), ("category", Value.vstr "Functional"),
    ("area", Value.vstr "core"), ("priority", Value.vint 1)]

/-- C10 amended witness: the amended acceptance condition evaluated on a
concrete dict-like mapping without a `features` entry. -/
theorem c10_schema_acceptance_amended_witness :
    ((lisa_schema.validate goodKwargs).isSome = true
      ↔ (c10ClaimAccepts goodKwargs && c10FeaturesClause goodKwargs) = true)
    ∧ (List.lookup "features" goodKwargs = none →
        ∀ r, lisa_schema.validate goodKwargs = some r →
          List.lookup "features" r = some (Value.vlist [])) :=
  c10_schema_acceptance_amended goodKwargs (by decide)
